import Mathlib

/-!
Verification of the Mushland game core (`src/App.tsx`).

The game engine is a pure reducer over a game state holding a deck, a hand,
three habitat card sequences and three counters.  The deck builder replicates
a fixed 6-template catalog six times and applies a Fisher–Yates shuffle driven
by random draws.  The interaction tracker turns a pointer release during a
drag into at most one Play action by hit-testing the three habitat rectangles
in a fixed order.

All definitions below are shallow embeddings of the TypeScript source:
numbers are `Nat` / `Int`, JS arrays are `List`, the `Record<Habitat, ...>`
is a three-field structure, and `Math.random()` is modelled by an ambient
choice function `rnd : Nat → Nat` (one draw per shuffle iteration, reduced
modulo the iteration bound exactly as `Math.floor(Math.random() * (i + 1))`
produces a value in `[0, i]`).
-/

namespace Mushland

/-- `type Habitat = 'forest' | 'log' | 'soil'` -/
inductive Habitat where
  | forest
  | log
  | soil
deriving DecidableEq, Repr

/-- `type Power = 'gainSpore' | 'gainNutrient' | 'drawCard'` -/
inductive Power where
  | gainSpore
  | gainNutrient
  | drawCard
deriving DecidableEq, Repr

/-- `Omit<Mushroom, 'id'>` — a catalog template, a card without its id. -/
structure BaseCard where
  name : String
  habitat : Habitat
  cost : Nat
  points : Nat
  power : Option Power
  art : String
deriving DecidableEq, Repr

/-- `interface Mushroom` — a card instance with its session-unique id. -/
structure Mushroom where
  id : Nat
  name : String
  habitat : Habitat
  cost : Nat
  points : Nat
  power : Option Power
  art : String
deriving DecidableEq, Repr

/-- `deck.push({ ...c, id: idCounter++ })` — instantiate a template with an id. -/
def Mushroom.ofBase (c : BaseCard) (id : Nat) : Mushroom :=
  { id := id, name := c.name, habitat := c.habitat, cost := c.cost,
    points := c.points, power := c.power, art := c.art }

/-- Forget the id of a card, recovering the catalog template it came from. -/
def Mushroom.toBase (m : Mushroom) : BaseCard :=
  { name := m.name, habitat := m.habitat, cost := m.cost,
    points := m.points, power := m.power, art := m.art }

/-- `const BASE_CARDS: Omit<Mushroom, 'id'>[]` — the fixed 6-template catalog. -/
def BASE_CARDS : List BaseCard := [
  { name := "Fly Agaric", habitat := .forest, cost := 2, points := 2,
    power := some .gainSpore, art := "images/mushrooms/agaric.jpg" },
  { name := "Shiitake", habitat := .log, cost := 1, points := 3,
    power := some .gainNutrient, art := "images/mushrooms/shiitake.jpg" },
  { name := "Lion\x27s Mane", habitat := .forest, cost := 2, points := 4,
    power := some .drawCard, art := "images/mushrooms/lionsmane.jpg" },
  { name := "Morel", habitat := .soil, cost := 3, points := 3,
    power := some .gainSpore, art := "images/mushrooms/morel.jpg" },
  { name := "Oyster", habitat := .log, cost := 1, points := 2,
    power := some .gainNutrient, art := "images/mushrooms/oyster.jpg" },
  { name := "Reishi", habitat := .forest, cost := 4, points := 5,
    power := some .gainNutrient, art := "images/mushrooms/reishi.jpg" }]

/-- One entry of the Fisher–Yates loop body:
`[deck[i], deck[j]] = [deck[j], deck[i]]` — exchange positions `i` and `j`
when both are in bounds (in the source they always are). -/
def listSwap (l : List Mushroom) (i j : Nat) : List Mushroom :=
  match l.get? i, l.get? j with
  | some a, some b => (l.set i b).set j a
  | _, _ => l

/-- The shuffle loop `for (let i = deck.length - 1; i > 0; i--)`, counting the
loop variable `i` down to 1; `rnd i % (i + 1)` models
`Math.floor(Math.random() * (i + 1))`, a value in `[0, i]`. -/
def shuffleFrom (rnd : Nat → Nat) (l : List Mushroom) : Nat → List Mushroom
  | 0 => l
  | i + 1 => shuffleFrom rnd (listSwap l (i + 1) (rnd (i + 1) % (i + 2))) i

/-- The deck before shuffling: `for (let i = 0; i < 6; i++) BASE_CARDS.forEach
(c => deck.push({ ...c, id: idCounter++ }))` — six rounds of the catalog, with
ids assigned sequentially from 0 (the module-level `idCounter` starts at 0 and
`createDeck` runs once). -/
def unshuffledDeck : List Mushroom :=
  (((List.range 6).flatMap fun _ => BASE_CARDS).enum).map fun p =>
    Mushroom.ofBase p.2 p.1

/-- `createDeck` — build the 36-card deck and Fisher–Yates shuffle it. -/
def createDeck (rnd : Nat → Nat) : List Mushroom :=
  shuffleFrom rnd unshuffledDeck (unshuffledDeck.length - 1)

/-- `habitats: Record<Habitat, Mushroom[]>` -/
structure Habitats where
  forest : List Mushroom
  log : List Mushroom
  soil : List Mushroom
deriving DecidableEq, Repr

/-- `state.habitats[habitat]` -/
def Habitats.get (hs : Habitats) : Habitat → List Mushroom
  | .forest => hs.forest
  | .log => hs.log
  | .soil => hs.soil

/-- `{ ...state.habitats, [habitat]: ... }` -/
def Habitats.set (hs : Habitats) (h : Habitat) (l : List Mushroom) : Habitats :=
  match h with
  | .forest => { hs with forest := l }
  | .log => { hs with log := l }
  | .soil => { hs with soil := l }

/-- `interface State` -/
structure State where
  deck : List Mushroom
  hand : List Mushroom
  habitats : Habitats
  nutrients : Int
  spores : Int
  score : Int
deriving DecidableEq, Repr

/-- `const initialState` — the shuffle is the only randomized step, so the
initial state is a function of the random draws. -/
def initialState (rnd : Nat → Nat) : State :=
  { deck := createDeck rnd, hand := [],
    habitats := { forest := [], log := [], soil := [] },
    nutrients := 8, spores := 0, score := 0 }

/-- `type Action` -/
inductive Action where
  | draw
  | play (cardId : Nat) (habitat : Habitat)
  | activate (habitat : Habitat)
deriving DecidableEq, Repr

/-- `case 'DRAW'` of the reducer, split out because the `drawCard` power
branch re-enters the reducer with a `DRAW` action. -/
def drawStep (s : State) : State :=
  match s.deck with
  | [] => s
  | c :: rest => { s with hand := s.hand ++ [c], deck := rest }

/-- `function reducer(state, action)` — the game engine's transition
function.  The `drawCard` branch `return reducer(newState, { type: 'DRAW' })`
is rendered as `drawStep newState`, which is what that call computes. -/
def reducer (s : State) (a : Action) : State :=
  match a with
  | .draw => drawStep s
  | .play cardId habitat =>
    match s.hand.find? fun c => c.id == cardId with
    | none => s
    | some card =>
      if card.habitat ≠ habitat ∨ s.nutrients < (card.cost : Int) ∨
          5 ≤ (s.habitats.get habitat).length then s
      else
        let ns : State :=
          { s with
            nutrients := s.nutrients - (card.cost : Int),
            hand := s.hand.filter fun c => c.id != cardId,
            habitats := s.habitats.set habitat (s.habitats.get habitat ++ [card]),
            score := s.score + (card.points : Int) }
        match card.power with
        | some .gainSpore => { ns with spores := ns.spores + 1 }
        | some .gainNutrient => { ns with nutrients := ns.nutrients + 1 }
        | some .drawCard => drawStep ns
        | none => ns
  | .activate habitat =>
    { s with nutrients := s.nutrients + ((s.habitats.get habitat).length : Int) }

/-- `getBoundingClientRect()` result, reduced to the four bounds the hit test
reads.  The hit test only compares coordinates (no arithmetic), so integer
coordinates model it faithfully. -/
structure Rect where
  left : Int
  right : Int
  top : Int
  bottom : Int
deriving DecidableEq, Repr

/-- `x > r.left && x < r.right && y > r.top && y < r.bottom` -/
def Rect.containsPt (r : Rect) (x y : Int) : Bool :=
  decide (r.left < x) && decide (x < r.right) &&
    decide (r.top < y) && decide (y < r.bottom)

/-- `dragging.current = { card, x, y }` — the interaction tracker's state;
`card = none` is Idle, `card = some c` is Dragging. -/
structure DragState where
  card : Option Mushroom
  x : Int
  y : Int
deriving DecidableEq, Repr

/-- `for (const hab of ['forest', 'log', 'soil'] as const)` — the fixed
hit-test order. -/
def habitatOrder : List Habitat := [.forest, .log, .soil]

/-- The loop-body test for one habitat: the ref may be null (`if (el)`),
and an absent ref never matches. -/
def zoneHit (refs : Habitat → Option Rect) (x y : Int) (hab : Habitat) : Bool :=
  match refs hab with
  | some r => r.containsPt x y
  | none => false

/-- `onMouseUp` — returns the new tracker state and the list of dispatched
actions: the loop breaks at the first habitat whose rectangle contains the
point, dispatching one PLAY; it always clears `dragging.current.card`.
Sound effects and render ticks are presentational and not modelled. -/
def onMouseUp (refs : Habitat → Option Rect) (d : DragState) : DragState × List Action :=
  match d.card with
  | none => (d, [])
  | some card =>
    match habitatOrder.find? (zoneHit refs d.x d.y) with
    | some hab => ({ d with card := none }, [.play card.id hab])
    | none => ({ d with card := none }, [])

/-! Concrete card instances and states used to witness the theorems below.
They instantiate catalog templates exactly as `createDeck` would. -/

/-- A Fly Agaric instance (cost 2, 2 points, gainSpore, forest). -/
def testCard : Mushroom :=
  { id := 0, name := "Fly Agaric", habitat := .forest, cost := 2, points := 2,
    power := some .gainSpore, art := "images/mushrooms/agaric.jpg" }

/-- A Shiitake instance (cost 1, 3 points, gainNutrient, log). -/
def testCard2 : Mushroom :=
  { id := 1, name := "Shiitake", habitat := .log, cost := 1, points := 3,
    power := some .gainNutrient, art := "images/mushrooms/shiitake.jpg" }

/-- A Lion's Mane instance (cost 2, 4 points, drawCard, forest). -/
def testCardDraw : Mushroom :=
  { id := 2, name := "Lion\x27s Mane", habitat := .forest, cost := 2, points := 4,
    power := some .drawCard, art := "images/mushrooms/lionsmane.jpg" }

/-- A mid-game state: one card in hand, one left in the deck, nutrients 8. -/
def sampleState : State :=
  { deck := [testCard2], hand := [testCard],
    habitats := { forest := [], log := [], soil := [] },
    nutrients := 8, spores := 0, score := 0 }

/-- Like `sampleState` but holding a drawCard-power card. -/
def sampleDrawState : State := { sampleState with hand := [testCardDraw] }

/-- Like `sampleDrawState` with the deck exhausted. -/
def emptyDeckState : State := { sampleDrawState with deck := [] }

/-- Drop-zone rectangles with only the forest ref mounted. -/
def sampleRefs : Habitat → Option Rect
  | .forest => some { left := 0, right := 10, top := 0, bottom := 10 }
  | _ => none

/-- A drag of `testCard` released at (5, 5). -/
def sampleDrag : DragState := { card := some testCard, x := 5, y := 5 }

/-! Helper lemmas about the habitat record and the draw step. -/

@[simp] theorem Habitats.get_set_self (hs : Habitats) (h : Habitat) (l : List Mushroom) :
    (hs.set h l).get h = l := by
  cases h <;> rfl

theorem Habitats.get_set (hs : Habitats) (h h' : Habitat) (l : List Mushroom) :
    (hs.set h l).get h' = if h' = h then l else hs.get h' := by
  cases h <;> cases h' <;> rfl

@[simp] theorem drawStep_nutrients (s : State) : (drawStep s).nutrients = s.nutrients := by
  unfold drawStep; cases s.deck <;> rfl

@[simp] theorem drawStep_spores (s : State) : (drawStep s).spores = s.spores := by
  unfold drawStep; cases s.deck <;> rfl

@[simp] theorem drawStep_score (s : State) : (drawStep s).score = s.score := by
  unfold drawStep; cases s.deck <;> rfl

@[simp] theorem drawStep_habitats (s : State) : (drawStep s).habitats = s.habitats := by
  unfold drawStep; cases s.deck <;> rfl

/-- C5: `Draw` with a non-empty deck moves exactly the front card of the deck
to the end of the hand — deck shortened by one, hand lengthened by one,
habitats, nutrients, spores and score unchanged; with an empty deck it
returns the state unchanged as a silent no-op. -/
theorem draw_spec (s : State) :
    (s.deck = [] → reducer s .draw = s) ∧
    ∀ c rest, s.deck = c :: rest →
      (reducer s .draw).deck = rest ∧
      (reducer s .draw).hand = s.hand ++ [c] ∧
      (reducer s .draw).habitats = s.habitats ∧
      (reducer s .draw).nutrients = s.nutrients ∧
      (reducer s .draw).spores = s.spores ∧
      (reducer s .draw).score = s.score := by
  constructor
  · intro h
    simp [reducer, drawStep, h]
  · intro c rest h
    simp [reducer, drawStep, h]

/-- C5 witness: drawing from `sampleState` empties its one-card deck and
appends that card to the hand. -/
theorem draw_spec_wit :
    (reducer sampleState .draw).deck = [] ∧
    (reducer sampleState .draw).hand = sampleState.hand ++ [testCard2] := by
  have h := (draw_spec sampleState).2 testCard2 [] rfl
  exact ⟨h.1, h.2.1⟩

/-- Auxiliary for C6: iterating `Activate h` leaves the habitats unchanged
and adds `n * length` nutrients after `n` activations. -/
theorem activate_iterate (s : State) (h : Habitat) (n : Nat) :
    ((fun t => reducer t (.activate h))^[n] s).nutrients
        = s.nutrients + n * ((s.habitats.get h).length : Int) ∧
    ((fun t => reducer t (.activate h))^[n] s).habitats = s.habitats := by
  have hstep : ∀ t : State, (reducer t (.activate h)).nutrients
      = t.nutrients + ((t.habitats.get h).length : Int) := fun _ => rfl
  have hstepH : ∀ t : State, (reducer t (.activate h)).habitats = t.habitats :=
    fun _ => rfl
  induction n with
  | zero => simp
  | succ k ih =>
    rw [Function.iterate_succ_apply']
    refine ⟨?_, ?_⟩
    · show (reducer _ (.activate h)).nutrients = _
      rw [hstep, ih.1, ih.2]
      push_cast
      ring
    · show (reducer _ (.activate h)).habitats = _
      rw [hstepH, ih.2]

/-- C6: `Activate h` always succeeds, adds exactly the number of cards
currently in habitat `h` to nutrients, changes nothing else, and iterated
`n` times on an otherwise untouched state adds `n` times that amount. -/
theorem activate_spec (s : State) (h : Habitat) :
    (reducer s (.activate h)).nutrients
        = s.nutrients + ((s.habitats.get h).length : Int) ∧
    (reducer s (.activate h)).deck = s.deck ∧
    (reducer s (.activate h)).hand = s.hand ∧
    (reducer s (.activate h)).habitats = s.habitats ∧
    (reducer s (.activate h)).spores = s.spores ∧
    (reducer s (.activate h)).score = s.score ∧
    ∀ n : Nat, ((fun t => reducer t (.activate h))^[n] s).nutrients
        = s.nutrients + n * ((s.habitats.get h).length : Int) := by
  refine ⟨rfl, rfl, rfl, rfl, rfl, rfl, fun n => (activate_iterate s h n).1⟩

/-- C1: a `Play` whose card id is absent from the hand, or whose found card
mismatches the requested habitat, costs more than the available nutrients,
or targets a habitat already holding 5 cards, returns the state unchanged. -/
theorem play_rejected (s : State) (cid : Nat) (hab : Habitat)
    (hrej : (∀ c ∈ s.hand, c.id ≠ cid) ∨
      ∃ card, s.hand.find? (fun c => c.id == cid) = some card ∧
        (card.habitat ≠ hab ∨ s.nutrients < (card.cost : Int) ∨
          5 ≤ (s.habitats.get hab).length)) :
    reducer s (.play cid hab) = s := by
  rcases hrej with hnone | ⟨card, hfind, hcond⟩
  · have hn : s.hand.find? (fun c => c.id == cid) = none := by
      apply List.find?_eq_none.2
      intro x hx
      simpa using hnone x hx
    simp [reducer, hn]
  · simp [reducer, hfind, hcond]

/-- C1 witness: playing an id that is not in the hand leaves `sampleState`
untouched. -/
theorem play_rejected_wit : reducer sampleState (.play 99 .forest) = sampleState :=
  play_rejected sampleState 99 .forest (Or.inl (by decide))

/-- C7: the reducer is a pure function of state and action — replaying the
same action sequence from the initial state built from the same random
draws reproduces the identical state. -/
theorem replay_deterministic (rnd₁ rnd₂ : Nat → Nat) (acts : List Action)
    (hseed : ∀ n, rnd₁ n = rnd₂ n) :
    List.foldl reducer (initialState rnd₁) acts
      = List.foldl reducer (initialState rnd₂) acts := by
  have h : rnd₁ = rnd₂ := funext hseed
  rw [h]

/-- C7 witness: a two-action replay from equal random draws agrees. -/
theorem replay_deterministic_wit :
    List.foldl reducer (initialState fun _ => 0) [.draw, .activate .forest]
      = List.foldl reducer (initialState fun _ => 0) [.draw, .activate .forest] :=
  replay_deterministic _ _ _ (fun _ => rfl)

/-- Reduction of a `Play` that passes all four validations: the reducer
builds the updated state and resolves the power on it. -/
theorem play_valid_reduce (s : State) (cid : Nat) (hab : Habitat) (card : Mushroom)
    (hfind : s.hand.find? (fun c => c.id == cid) = some card)
    (hhab : card.habitat = hab)
    (hcost : (card.cost : Int) ≤ s.nutrients)
    (hcap : (s.habitats.get hab).length < 5) :
    reducer s (.play cid hab) =
      (let ns : State := { s with
          nutrients := s.nutrients - (card.cost : Int),
          hand := s.hand.filter fun c => c.id != cid,
          habitats := s.habitats.set hab (s.habitats.get hab ++ [card]),
          score := s.score + (card.points : Int) }
       match card.power with
       | some .gainSpore => { ns with spores := ns.spores + 1 }
       | some .gainNutrient => { ns with nutrients := ns.nutrients + 1 }
       | some .drawCard => drawStep ns
       | none => ns) := by
  have hcond : ¬(card.habitat ≠ hab ∨ s.nutrients < (card.cost : Int) ∨
      5 ≤ (s.habitats.get hab).length) := by
    push_neg
    exact ⟨hhab, hcost, hcap⟩
  simp [reducer, hfind, hcond]

/-- Removing the cards with a given id shortens a hand by the number of
cards carrying that id. -/
theorem filter_ne_length (l : List Mushroom) (cid : Nat) :
    (l.filter fun c => c.id != cid).length
      + l.countP (fun c => c.id == cid) = l.length := by
  rw [← List.countP_eq_length_filter]
  have hl := List.length_eq_countP_add_countP (l := l) (fun c => c.id == cid)
  have hcongr : l.countP (fun c => c.id != cid)
      = l.countP fun c => decide ¬((c.id == cid) = true) := by
    apply List.countP_congr
    intro a _
    simp [bne]
  rw [hcongr]
  omega

/-- C3: a `Play` passing all four validations removes the card from hand,
appends it to the target habitat, subtracts the cost from nutrients and adds
the points to score; then the card's power (none here being drawCard) adds
one spore for gainSpore and one nutrient for gainNutrient on the
already-updated state. -/
theorem play_success (s : State) (cid : Nat) (hab : Habitat) (card : Mushroom)
    (hfind : s.hand.find? (fun c => c.id == cid) = some card)
    (hhab : card.habitat = hab)
    (hcost : (card.cost : Int) ≤ s.nutrients)
    (hcap : (s.habitats.get hab).length < 5) :
    (card.power ≠ some .drawCard →
      (reducer s (.play cid hab)).hand = (s.hand.filter fun c => c.id != cid) ∧
      (reducer s (.play cid hab)).deck = s.deck) ∧
    (reducer s (.play cid hab)).habitats
        = s.habitats.set hab (s.habitats.get hab ++ [card]) ∧
    (reducer s (.play cid hab)).score = s.score + (card.points : Int) ∧
    (reducer s (.play cid hab)).nutrients = s.nutrients - (card.cost : Int)
        + (if card.power = some .gainNutrient then 1 else 0) ∧
    (reducer s (.play cid hab)).spores = s.spores
        + (if card.power = some .gainSpore then 1 else 0) := by
  rw [play_valid_reduce s cid hab card hfind hhab hcost hcap]
  rcases hp : card.power with _ | pw
  · simp [hp]
  · cases pw with
    | gainSpore => simp [hp]
    | gainNutrient => simp [hp]
    | drawCard =>
      refine ⟨fun hpow => absurd rfl hpow, ?_, ?_, ?_, ?_⟩ <;>
        simp [hp]

/-- C3 witness: playing the cost-2, 2-point, gainSpore, forest card from
nutrients 8 yields nutrients 6, spores 1, score 2 and the card alone in the
forest habitat. -/
theorem play_success_wit :
    (reducer sampleState (.play 0 .forest)).nutrients = 6 ∧
    (reducer sampleState (.play 0 .forest)).spores = 1 ∧
    (reducer sampleState (.play 0 .forest)).score = 2 ∧
    (reducer sampleState (.play 0 .forest)).habitats.get .forest = [testCard] ∧
    (reducer sampleState (.play 0 .forest)).hand = [] := by
  have h := play_success sampleState 0 .forest testCard (by decide) rfl
    (by decide) (by decide)
  refine ⟨?_, ?_, ?_, ?_, ?_⟩
  · rw [h.2.2.2.1]; decide
  · rw [h.2.2.2.2]; decide
  · rw [h.2.2.1]; decide
  · rw [h.2.1]; decide
  · rw [(h.1 (by decide)).1]; decide

/-- C4: playing a drawCard-power card in one transition equals applying the
power-less play update and then a `Draw` action; with a non-empty deck and a
uniquely-identified card the net hand size is unchanged and the deck is one
shorter. -/
theorem play_drawCard_comp (s : State) (cid : Nat) (hab : Habitat) (card : Mushroom)
    (hfind : s.hand.find? (fun c => c.id == cid) = some card)
    (hhab : card.habitat = hab)
    (hcost : (card.cost : Int) ≤ s.nutrients)
    (hcap : (s.habitats.get hab).length < 5)
    (hpow : card.power = some .drawCard) :
    reducer s (.play cid hab)
      = reducer { s with
          nutrients := s.nutrients - (card.cost : Int),
          hand := s.hand.filter fun c => c.id != cid,
          habitats := s.habitats.set hab (s.habitats.get hab ++ [card]),
          score := s.score + (card.points : Int) } .draw ∧
    (s.deck ≠ [] → s.hand.countP (fun c => c.id == cid) = 1 →
      (reducer s (.play cid hab)).hand.length = s.hand.length ∧
      (reducer s (.play cid hab)).deck.length = s.deck.length - 1) := by
  rw [play_valid_reduce s cid hab card hfind hhab hcost hcap]
  simp only [hpow]
  refine ⟨rfl, ?_⟩
  intro hne hcount
  rcases hd : s.deck with _ | ⟨c, rest⟩
  · exact absurd hd hne
  · have hfl := filter_ne_length s.hand cid
    constructor
    · show (drawStep _).hand.length = _
      simp only [drawStep, hd]
      simp
      omega
    · show (drawStep _).deck.length = _
      simp only [drawStep, hd]
      simp

/-- C4 witness: playing the drawCard card from a one-card hand over a
one-card deck keeps the hand at one card and empties the deck. -/
theorem play_drawCard_comp_wit :
    (reducer sampleDrawState (.play 2 .forest)).hand.length
        = sampleDrawState.hand.length ∧
    (reducer sampleDrawState (.play 2 .forest)).deck.length
        = sampleDrawState.deck.length - 1 := by
  have h := play_drawCard_comp sampleDrawState 2 .forest testCardDraw (by decide)
    rfl (by decide) (by decide) rfl
  exact h.2 (by decide) (by decide)

/-- C10: with an empty deck, a fully validated play of a drawCard-power card
still succeeds as a normal play with the nested draw a no-op: the deck stays
empty, the cost, points and habitat placement apply exactly, spores are
untouched, and the hand shrinks by one net. -/
theorem play_drawCard_emptyDeck (s : State) (cid : Nat) (hab : Habitat) (card : Mushroom)
    (hfind : s.hand.find? (fun c => c.id == cid) = some card)
    (hhab : card.habitat = hab)
    (hcost : (card.cost : Int) ≤ s.nutrients)
    (hcap : (s.habitats.get hab).length < 5)
    (hpow : card.power = some .drawCard)
    (hdeck : s.deck = []) :
    (reducer s (.play cid hab)).deck = [] ∧
    (reducer s (.play cid hab)).hand = (s.hand.filter fun c => c.id != cid) ∧
    (reducer s (.play cid hab)).nutrients = s.nutrients - (card.cost : Int) ∧
    (reducer s (.play cid hab)).score = s.score + (card.points : Int) ∧
    (reducer s (.play cid hab)).spores = s.spores ∧
    (reducer s (.play cid hab)).habitats
        = s.habitats.set hab (s.habitats.get hab ++ [card]) ∧
    (s.hand.countP (fun c => c.id == cid) = 1 →
      (reducer s (.play cid hab)).hand.length + 1 = s.hand.length) := by
  rw [play_valid_reduce s cid hab card hfind hhab hcost hcap]
  simp only [hpow]
  simp only [drawStep, hdeck]
  refine ⟨?_, ?_, ?_, ?_, ?_, ?_, ?_⟩ <;>
    first
      | trivial
      | (intro hcount
         have hfl := filter_ne_length s.hand cid
         omega)

/-- C10 witness: playing the drawCard card over an empty deck empties the
hand, keeps the deck empty, and applies cost and points normally. -/
theorem play_drawCard_emptyDeck_wit :
    (reducer emptyDeckState (.play 2 .forest)).deck = [] ∧
    (reducer emptyDeckState (.play 2 .forest)).hand = [] ∧
    (reducer emptyDeckState (.play 2 .forest)).nutrients = 6 ∧
    (reducer emptyDeckState (.play 2 .forest)).score = 4 ∧
    (reducer emptyDeckState (.play 2 .forest)).spores = 0 := by
  have h := play_drawCard_emptyDeck emptyDeckState 2 .forest testCardDraw
    (by decide) rfl (by decide) (by decide) rfl rfl
  refine ⟨h.1, ?_, ?_, ?_, ?_⟩
  · rw [h.2.1]; decide
  · rw [h.2.2.1]; decide
  · rw [h.2.2.2.1]; decide
  · rw [h.2.2.2.2.1]; decide

/-- C9: releasing a drag tests the point against the zones in the fixed
order forest, log, soil, emits exactly one Play action for the first zone
containing the point (none if no zone does), and always clears the carried
card. -/
theorem onMouseUp_spec (refs : Habitat → Option Rect) (d : DragState) (card : Mushroom)
    (hc : d.card = some card) :
    (onMouseUp refs d).1.card = none ∧
    (onMouseUp refs d).2 =
      (if zoneHit refs d.x d.y .forest then [Action.play card.id .forest]
       else if zoneHit refs d.x d.y .log then [Action.play card.id .log]
       else if zoneHit refs d.x d.y .soil then [Action.play card.id .soil]
       else []) := by
  cases hF : zoneHit refs d.x d.y .forest <;>
    cases hL : zoneHit refs d.x d.y .log <;>
      cases hS : zoneHit refs d.x d.y .soil <;>
        simp [onMouseUp, hc, habitatOrder, List.find?, hF, hL, hS]

/-- C9 witness: a drop at (5, 5) with only the forest rectangle present and
containing the point emits exactly `Play(card 0, forest)` and clears the
drag. -/
theorem onMouseUp_spec_wit :
    (onMouseUp sampleRefs sampleDrag).1.card = none ∧
    (onMouseUp sampleRefs sampleDrag).2 = [Action.play 0 .forest] := by
  have h := onMouseUp_spec sampleRefs sampleDrag testCard rfl
  exact ⟨h.1, h.2.trans (by decide)⟩

/-! Reachability invariant (C2). -/

/-- The conservation invariant: non-negative counters and no habitat over
its 5-card capacity. -/
def Inv (s : State) : Prop :=
  0 ≤ s.nutrients ∧ 0 ≤ s.spores ∧ ∀ h : Habitat, (s.habitats.get h).length ≤ 5

theorem Inv_drawStep (s : State) (h : Inv s) : Inv (drawStep s) := by
  obtain ⟨h1, h2, h3⟩ := h
  exact ⟨by rw [drawStep_nutrients]; exact h1,
    by rw [drawStep_spores]; exact h2,
    fun hb => by rw [drawStep_habitats]; exact h3 hb⟩

theorem Inv_step (s : State) (a : Action) (h : Inv s) : Inv (reducer s a) := by
  obtain ⟨h1, h2, h3⟩ := h
  cases a with
  | draw => exact Inv_drawStep s ⟨h1, h2, h3⟩
  | activate hb =>
    refine ⟨?_, h2, h3⟩
    show 0 ≤ s.nutrients + ((s.habitats.get hb).length : Int)
    have := Int.natCast_nonneg (s.habitats.get hb).length
    omega
  | play cid hab =>
    rcases hfind : s.hand.find? (fun c => c.id == cid) with _ | card
    · have hs : reducer s (.play cid hab) = s := by simp [reducer, hfind]
      rw [hs]; exact ⟨h1, h2, h3⟩
    · by_cases hcond : card.habitat ≠ hab ∨ s.nutrients < (card.cost : Int) ∨
        5 ≤ (s.habitats.get hab).length
      · have hs : reducer s (.play cid hab) = s := by simp [reducer, hfind, hcond]
        rw [hs]; exact ⟨h1, h2, h3⟩
      · push_neg at hcond
        obtain ⟨hhab, hcost, hcap⟩ := hcond
        rw [play_valid_reduce s cid hab card hfind hhab hcost hcap]
        have hns : Inv { s with
            nutrients := s.nutrients - (card.cost : Int),
            hand := s.hand.filter fun c => c.id != cid,
            habitats := s.habitats.set hab (s.habitats.get hab ++ [card]),
            score := s.score + (card.points : Int) } := by
          refine ⟨?_, h2, ?_⟩
          · show 0 ≤ s.nutrients - (card.cost : Int)
            omega
          · intro hb'
            show ((s.habitats.set hab (s.habitats.get hab ++ [card])).get hb').length ≤ 5
            by_cases hhb : hb' = hab
            · subst hhb
              rw [Habitats.get_set_self, List.length_append]
              simp only [List.length_cons, List.length_nil]
              omega
            · rw [Habitats.get_set, if_neg hhb]
              exact h3 hb'
        rcases hp : card.power with _ | pw
        · simpa only [hp] using hns
        · cases pw with
          | gainSpore =>
            simp only [hp]
            refine ⟨?_, ?_, fun hb' => ?_⟩
            · show 0 ≤ s.nutrients - (card.cost : Int)
              omega
            · show 0 ≤ s.spores + 1
              omega
            · show ((s.habitats.set hab (s.habitats.get hab ++ [card])).get hb').length ≤ 5
              exact hns.2.2 hb'
          | gainNutrient =>
            simp only [hp]
            refine ⟨?_, ?_, fun hb' => ?_⟩
            · show 0 ≤ s.nutrients - (card.cost : Int) + 1
              omega
            · show 0 ≤ s.spores
              omega
            · show ((s.habitats.set hab (s.habitats.get hab ++ [card])).get hb').length ≤ 5
              exact hns.2.2 hb'
          | drawCard =>
            simp only [hp]
            exact Inv_drawStep _ hns

/-- C2: every state reachable from the initial state by any finite sequence
of actions has non-negative nutrients and spores and at most 5 cards in each
habitat. -/
theorem reachable_invariant (rnd : Nat → Nat) (acts : List Action) :
    Inv (List.foldl reducer (initialState rnd) acts) := by
  have hinit : Inv (initialState rnd) := by
    refine ⟨?_, ?_, fun h => ?_⟩
    · exact (by decide : (0 : Int) ≤ 8)
    · exact (by decide : (0 : Int) ≤ 0)
    · cases h <;> exact Nat.zero_le 5
  suffices hall : ∀ s : State, Inv s → Inv (List.foldl reducer s acts) from
    hall _ hinit
  induction acts with
  | nil => intro s hs; exact hs
  | cons a rest ih => intro s hs; exact ih _ (Inv_step s a hs)

/-! Deck construction (C8). -/

theorem set_self_of_get {l : List Mushroom} :
    ∀ {i : Nat} {a : Mushroom}, l.get? i = some a → l.set i a = l := by
  induction l with
  | nil => intro i a hi; simp at hi
  | cons x xs ih =>
    intro i a hi
    cases i with
    | zero =>
      simp only [List.get?_cons_zero, Option.some_inj] at hi
      rw [← hi]
      rfl
    | succ n =>
      simp only [List.get?_cons_succ] at hi
      show x :: xs.set n a = x :: xs
      rw [ih hi]

theorem cons_set_perm {l : List Mushroom} :
    ∀ {m : Nat} {b x : Mushroom}, l.get? m = some b →
      (b :: l.set m x).Perm (x :: l) := by
  induction l with
  | nil => intro m b x h; simp at h
  | cons y ys ih =>
    intro m b x h
    cases m with
    | zero =>
      simp only [List.get?_cons_zero, Option.some_inj] at h
      rw [← h]
      exact List.Perm.swap x y ys
    | succ m =>
      simp only [List.get?_cons_succ] at h
      show (b :: y :: ys.set m x).Perm (x :: y :: ys)
      exact ((List.Perm.swap y b (ys.set m x)).trans ((ih h).cons y)).trans
        (List.Perm.swap x y ys)

theorem set_set_perm {l : List Mushroom} :
    ∀ {i j : Nat} {a b : Mushroom}, l.get? i = some a → l.get? j = some b →
      ((l.set i b).set j a).Perm l := by
  induction l with
  | nil => intro i j a b hi _; simp at hi
  | cons x xs ih =>
    intro i j a b hi hj
    cases i with
    | zero =>
      simp only [List.get?_cons_zero, Option.some_inj] at hi
      cases j with
      | zero =>
        simp only [List.get?_cons_zero, Option.some_inj] at hj
        rw [← hi, ← hj]
        show (x :: xs).Perm (x :: xs)
        exact List.Perm.refl _
      | succ m =>
        simp only [List.get?_cons_succ] at hj
        rw [← hi]
        show (b :: xs.set m x).Perm (x :: xs)
        exact cons_set_perm hj
    | succ n =>
      simp only [List.get?_cons_succ] at hi
      cases j with
      | zero =>
        simp only [List.get?_cons_zero, Option.some_inj] at hj
        rw [← hj]
        show (a :: xs.set n x).Perm (x :: xs)
        exact cons_set_perm hi
      | succ m =>
        simp only [List.get?_cons_succ] at hj
        show (x :: (xs.set n b).set m a).Perm (x :: xs)
        exact (ih hi hj).cons x

theorem listSwap_perm (l : List Mushroom) (i j : Nat) : (listSwap l i j).Perm l := by
  unfold listSwap
  cases hi : l.get? i with
  | none => exact List.Perm.refl l
  | some a =>
    cases hj : l.get? j with
    | none => exact List.Perm.refl l
    | some b => exact set_set_perm hi hj

theorem shuffleFrom_perm (rnd : Nat → Nat) :
    ∀ (n : Nat) (l : List Mushroom), (shuffleFrom rnd l n).Perm l := by
  intro n
  induction n with
  | zero => intro l; exact List.Perm.refl l
  | succ i ih =>
    intro l
    exact (ih _).trans (listSwap_perm l (i + 1) (rnd (i + 1) % (i + 2)))

theorem createDeck_perm (rnd : Nat → Nat) : (createDeck rnd).Perm unshuffledDeck :=
  shuffleFrom_perm rnd _ _

/-- C8: for every sequence of random draws the constructed deck has exactly
36 cards, is a permutation of the replicated catalog, has pairwise distinct
ids, and contains exactly 6 copies of each of the 6 catalog templates. -/
theorem createDeck_spec (rnd : Nat → Nat) :
    (createDeck rnd).length = 36 ∧
    (createDeck rnd).Perm unshuffledDeck ∧
    ((createDeck rnd).map Mushroom.id).Nodup ∧
    ∀ t ∈ BASE_CARDS, ((createDeck rnd).map Mushroom.toBase).count t = 6 := by
  have hperm := createDeck_perm rnd
  refine ⟨?_, hperm, ?_, ?_⟩
  · rw [hperm.length_eq]
    decide
  · have hids := hperm.map Mushroom.id
    rw [hids.nodup_iff]
    rw [show unshuffledDeck.map Mushroom.id = List.range 36 from by decide]
    exact List.nodup_range 36
  · intro t ht
    have hmap := hperm.map Mushroom.toBase
    rw [hmap.count_eq t]
    fin_cases ht <;> decide

/-- C8 witness: with all random draws 0, the deck holds exactly 6 Morels. -/
theorem createDeck_spec_wit :
    ((createDeck fun _ => 0).map Mushroom.toBase).count
      { name := "Morel", habitat := .soil, cost := 3, points := 3,
        power := some .gainSpore, art := "images/mushrooms/morel.jpg" } = 6 :=
  (createDeck_spec fun _ => 0).2.2.2 _ (by decide)

end Mushland
